import Mathlib

/-!
Verification of the chat-server core (session registry, message routing,
authentication state machine) against its natural-language specification.

The Go sources are shallowly embedded: Go strings are modelled as lists of
characters (`Str`), Go maps as Lean functions into `Option`, the SQLite
`users` table as a list of rows, channels consumed by a single goroutine as
FIFO queues processed by an explicit step function, and per-connection
writes as explicit `Delivery` values.  bcrypt is modelled by its contract
(a salted hash verifies against exactly the hashed password).
-/

/-- Go strings, modelled as lists of characters. -/
abbrev Str := List Char

/-- Embed a Lean string literal as a `Str`. -/
def str (s : String) : Str := s.toList

/-- Auxiliary worker for `splitOnSep`: `acc` holds the current field reversed. -/
def splitOnAux (sep : Char) : Str → Str → List Str
  | [], acc => [acc.reverse]
  | c :: cs, acc =>
    if c = sep then acc.reverse :: splitOnAux sep cs []
    else splitOnAux sep cs (c :: acc)

/-- Go `strings.Split(s, sep)` for a single-character separator. -/
def splitOnSep (sep : Char) (s : Str) : List Str := splitOnAux sep s []

/-- Go `strings.Join(parts, sep)` for a single-character separator. -/
def joinSep (sep : Char) : List Str → Str
  | [] => []
  | [x] => x
  | x :: y :: xs => x ++ sep :: joinSep sep (y :: xs)

/-- Go `strings.SplitN(s, sep, n)` (for `n ≥ 1`): at most `n` fields, the
last field keeps the remaining separators. -/
def goSplitN (s : Str) (sep : Char) (n : Nat) : List Str :=
  let ps := splitOnSep sep s
  if ps.length ≤ n then ps else ps.take (n - 1) ++ [joinSep sep (ps.drop (n - 1))]

/-- Go `strings.TrimSpace` (ASCII whitespace; the Go original also trims the
rare non-ASCII Unicode spaces, which no command string in scope contains). -/
def goTrim (s : Str) : Str :=
  ((s.dropWhile Char.isWhitespace).reverse.dropWhile Char.isWhitespace).reverse

/-- Go `strings.HasPrefix(s, p)`. -/
def goStartsWith (s p : Str) : Bool := p.isPrefixOf s

/-- UTF-8 byte size of one character, as Go counts it. -/
def charBytes (c : Char) : Nat :=
  if c.val < 128 then 1 else if c.val < 2048 then 2 else if c.val < 65536 then 3 else 4

/-- Go `len(s)`: the UTF-8 byte length of the string. -/
def goLen (s : Str) : Nat := (s.map charBytes).sum

example : str "ab c" = ['a', 'b', ' ', 'c'] := by decide

example : goSplitN (str "/register alice secret1") ' ' 3
    = [str "/register", str "alice", str "secret1"] := by decide

example : goSplitN (str "/private bob hello there") ' ' 3
    = [str "/private", str "bob", str "hello there"] := by decide

example : goSplitN (str "/status busy now") ' ' 2 = [str "/status", str "busy now"] := by
  decide

example : goTrim (str "  hi  ") = str "hi" := by decide

example : goLen (str "abcdefghijk") = 11 := by decide

theorem splitOnAux_ne_nil (sep : Char) (s acc : Str) : splitOnAux sep s acc ≠ [] := by
  induction s generalizing acc with
  | nil => simp [splitOnAux]
  | cons c cs ih =>
    by_cases hc : c = sep
    · simp [splitOnAux, hc]
    · simpa [splitOnAux, hc] using ih (c :: acc)

theorem splitOnSep_ne_nil (sep : Char) (s : Str) : splitOnSep sep s ≠ [] :=
  splitOnAux_ne_nil sep s []

theorem splitOnAux_sep_free (sep : Char) (a acc : Str) (ha : ∀ c ∈ a, c ≠ sep) :
    splitOnAux sep a acc = [acc.reverse ++ a] := by
  induction a generalizing acc with
  | nil => simp [splitOnAux]
  | cons c cs ih =>
    have hc : c ≠ sep := ha c (List.mem_cons_self c cs)
    rw [splitOnAux, if_neg hc, ih (c :: acc) (fun x hx => ha x (List.mem_cons_of_mem c hx))]
    simp

theorem splitOnAux_append_sep (sep : Char) (a b acc : Str) (ha : ∀ c ∈ a, c ≠ sep) :
    splitOnAux sep (a ++ sep :: b) acc = (acc.reverse ++ a) :: splitOnSep sep b := by
  induction a generalizing acc with
  | nil => simp [splitOnAux, splitOnSep]
  | cons c cs ih =>
    have hc : c ≠ sep := ha c (List.mem_cons_self c cs)
    rw [List.cons_append, splitOnAux, if_neg hc,
      ih (c :: acc) (fun x hx => ha x (List.mem_cons_of_mem c hx))]
    simp

theorem splitOnSep_append_sep (sep : Char) (a b : Str) (ha : ∀ c ∈ a, c ≠ sep) :
    splitOnSep sep (a ++ sep :: b) = a :: splitOnSep sep b := by
  simpa using splitOnAux_append_sep sep a b [] ha

theorem joinSep_cons (sep : Char) (x : Str) (l : List Str) (hl : l ≠ []) :
    joinSep sep (x :: l) = x ++ sep :: joinSep sep l := by
  cases l with
  | nil => exact absurd rfl hl
  | cons y ys => rfl

theorem joinSep_splitOnAux (sep : Char) (s acc : Str) :
    joinSep sep (splitOnAux sep s acc) = acc.reverse ++ s := by
  induction s generalizing acc with
  | nil => simp [splitOnAux, joinSep]
  | cons c cs ih =>
    by_cases hc : c = sep
    · subst hc
      rw [splitOnAux, if_pos rfl,
        joinSep_cons c acc.reverse (splitOnAux c cs []) (splitOnAux_ne_nil c cs [])]
      have := ih ([] : Str)
      simp only [List.reverse_nil, List.nil_append] at this
      rw [this]
    · rw [splitOnAux, if_neg hc, ih (c :: acc)]
      simp

theorem joinSep_splitOnSep (sep : Char) (s : Str) :
    joinSep sep (splitOnSep sep s) = s := by
  simpa using joinSep_splitOnAux sep s []

/-- Splitting a reconstructed `/private <name> <text>` line into at most three
fields recovers the name and the text exactly, provided the name contains no
space. -/
theorem goSplitN3_reconstructed (ls m : Str) (hls : ∀ c ∈ ls, c ≠ ' ') :
    goSplitN (str "/private " ++ ls ++ ' ' :: m) ' ' 3 = [str "/private", ls, m] := by
  have hcmd : ∀ c ∈ str "/private", c ≠ ' ' := by decide
  have hshape : str "/private " ++ ls ++ ' ' :: m = str "/private" ++ ' ' :: (ls ++ ' ' :: m) := by
    simp [str]
  have hsplit : splitOnSep ' ' (str "/private " ++ ls ++ ' ' :: m)
      = str "/private" :: ls :: splitOnSep ' ' m := by
    rw [hshape, splitOnSep_append_sep ' ' _ _ hcmd, splitOnSep_append_sep ' ' _ _ hls]
  unfold goSplitN
  rw [hsplit]
  cases hm : splitOnSep ' ' m with
  | nil => exact absurd hm (splitOnSep_ne_nil ' ' m)
  | cons x xs =>
    cases xs with
    | nil =>
      have hx : x = m := by
        have := joinSep_splitOnSep ' ' m
        rw [hm] at this
        simpa [joinSep] using this
      simp [hx]
    | cons y ys =>
      have hjoin : joinSep ' ' (x :: y :: ys) = m := by
        have := joinSep_splitOnSep ' ' m
        rw [hm] at this
        exact this
      simp [hjoin]

/-- Model of a bcrypt hash (`bcrypt.GenerateFromPassword`): a salted hash is
determined by the salt and the hashed password; comparison succeeds exactly
against the hashed password (the bcrypt contract, collisions ignored). -/
structure BcryptHash where
  salt : Nat
  hashed : Str
deriving DecidableEq, Repr

/-- bcrypt.GenerateFromPassword with an explicit salt. -/
def generateFromPassword (salt : Nat) (password : Str) : BcryptHash :=
  ⟨salt, password⟩

/-- bcrypt.CompareHashAndPassword, as a Bool (true = match). -/
def compareHashAndPassword (h : BcryptHash) (password : Str) : Bool :=
  h.hashed == password

/-- One row of the SQLite `users` table (username TEXT PRIMARY KEY,
password TEXT, status TEXT DEFAULT ''). -/
structure Credential where
  username : Str
  passwordHash : BcryptHash
  status : Str
deriving DecidableEq, Repr

/-- The `users` table, as its list of rows. -/
abbrev CredDB := List Credential

/-- `SELECT COUNT(*) FROM users WHERE username = ?`. -/
def countUser (db : CredDB) (u : Str) : Nat :=
  (db.filter (fun c => c.username == u)).length

/-- `saveUser` (database.go): hash the password and INSERT the row
(status defaults to the empty string). -/
def saveUser (db : CredDB) (u p : Str) (salt : Nat) : CredDB :=
  db ++ [⟨u, generateFromPassword salt p, []⟩]

/-- `SELECT password FROM users WHERE username = ?` (first matching row;
username is the primary key). -/
def lookupHash (db : CredDB) (u : Str) : Option BcryptHash :=
  (db.find? (fun c => c.username == u)).map (fun c => c.passwordHash)

/-- `verifyUser` (database.go): false when the row is absent, otherwise the
bcrypt comparison. -/
def verifyUser (db : CredDB) (u p : Str) : Bool :=
  match lookupHash db u with
  | none => false
  | some h => compareHashAndPassword h p

/-- `updateUserStatus` (database.go): `UPDATE users SET status = ? WHERE
username = ?` (updates every matching row, deletes none). -/
def updateUserStatus (db : CredDB) (u s : Str) : CredDB :=
  db.map (fun c => if c.username == u then { c with status := s } else c)

/-- `getUserStatus` (database.go). -/
def getUserStatus (db : CredDB) (u : Str) : Option Str :=
  (db.find? (fun c => c.username == u)).map (fun c => c.status)

/-- The registration rate-limit state (main.go globals `registerAttempts`,
`registerTimes`), keyed by the origin (remote address). Times are in
nanoseconds, as Go `time.Time`/`time.Duration` differences are. -/
structure RateState where
  attempts : Str → Nat
  times : Str → Option Nat

/-- `time.Minute` in nanoseconds. -/
def minuteNs : Nat := 60000000000

/-- `isRateLimited` (main.go lines 34-54): reset the counter when more than a
minute passed since the last recorded attempt; deny when the (possibly reset)
counter has reached 3; otherwise count this attempt and record its time. -/
def isRateLimited (st : RateState) (ip : Str) (now : Nat) : Bool × RateState :=
  let attempts1 : Str → Nat :=
    match st.times ip with
    | some lastAttempt =>
      if minuteNs < now - lastAttempt then (fun j => if j = ip then 0 else st.attempts j)
      else st.attempts
    | none => st.attempts
  if 3 ≤ attempts1 ip then (true, { attempts := attempts1, times := st.times })
  else
    (false,
      { attempts := fun j => if j = ip then attempts1 ip + 1 else attempts1 j,
        times := fun j => if j = ip then some now else st.times j })

/-- Outcome of `handleRegisterCommand`, identified by which branch wrote
which error message (empty username result in Go = not authenticated). -/
inductive RegisterResult where
  | rateLimited
  | usage
  | userTooLong
  | passTooLong
  | duplicate
  | ok (username : Str)
deriving DecidableEq, Repr

/-- `handleRegisterCommand` (main.go lines 191-239): rate-limit check first
(before any parsing), then `SplitN(message, " ", 3)`, trim, length checks,
duplicate check via `COUNT(*)`, then `saveUser`.  Returns the result, the
updated table and the updated rate-limit state. -/
def handleRegisterCommand (rl : RateState) (ip : Str) (now : Nat) (db : CredDB)
    (message : Str) (salt : Nat) : RegisterResult × CredDB × RateState :=
  let res := isRateLimited rl ip now
  if res.1 then (.rateLimited, db, res.2)
  else
    match goSplitN message ' ' 3 with
    | [_, u0, p0] =>
      let username := goTrim u0
      let password := goTrim p0
      if 10 < goLen username then (.userTooLong, db, res.2)
      else if 10 < goLen password then (.passTooLong, db, res.2)
      else if 0 < countUser db username then (.duplicate, db, res.2)
      else (.ok username, saveUser db username password salt, res.2)
    | _ => (.usage, db, res.2)

/-- Outcome of `handleLoginCommand`. -/
inductive LoginResult where
  | usage
  | userTooLong
  | passTooLong
  | invalidCredentials
  | ok (username : Str)
deriving DecidableEq, Repr

/-- `handleLoginCommand` (main.go lines 242-268): `SplitN(message, " ", 3)`,
trim, length checks, then `verifyUser`. -/
def handleLoginCommand (db : CredDB) (message : Str) : LoginResult :=
  match goSplitN message ' ' 3 with
  | [_, u0, p0] =>
    let username := goTrim u0
    let password := goTrim p0
    if 10 < goLen username then .userTooLong
    else if 10 < goLen password then .passTooLong
    else if verifyUser db username password then .ok username
    else .invalidCredentials
  | _ => .usage

/-- Outcome of `handleStatusCommand`. -/
inductive StatusResult where
  | usage
  | ok (newStatus : Str)
deriving DecidableEq, Repr

/-- `handleStatusCommand` (main.go lines 271-288): `SplitN(message, " ", 2)`;
usage error when there is no argument or it trims to empty; otherwise the
UPDATE is keyed by `clients[conn]` — the session's display name. -/
def handleStatusCommand (db : CredDB) (displayName : Str) (message : Str) :
    StatusResult × CredDB :=
  match goSplitN message ' ' 2 with
  | [_, arg] =>
    if goTrim arg = [] then (.usage, db)
    else (.ok arg, updateUserStatus db displayName arg)
  | _ => (.usage, db)

/-- Display-name claim (main.go lines 140-151, one critical section): if the
name is already in `displayNames` the claimant is rejected and the set is
unchanged (the client is re-prompted); otherwise the name is marked used. -/
def claimDisplayName (names : Str → Bool) (n : Str) : Bool × (Str → Bool) :=
  if names n then (false, names)
  else (true, fun m => if m = n then true else names m)

/-- `delete(displayNames, name)` in the disconnect cleanup
(main.go line 184). -/
def releaseDisplayName (names : Str → Bool) (n : Str) : Str → Bool :=
  fun m => if m = n then false else names m

/-- A `PrivateMessage` as sent on the `privateMsg` channel
(private_message.go). -/
structure PrivateMessage where
  sender : Str
  recipient : Str
  message : Str
deriving DecidableEq, Repr

/-- Result of `handlePrivateMessage`'s parsing step (private_message.go
lines 24-42): usage error, or the message placed on the channel.  The sender
field is `clients[conn]`, the session's display name. -/
inductive PrivateParse where
  | usage
  | msg (pm : PrivateMessage)
deriving DecidableEq, Repr

/-- `handlePrivateMessage` parsing: `SplitN(message, " ", 3)`; recipient and
content are taken untrimmed. -/
def parsePrivateMessage (senderName : Str) (message : Str) : PrivateParse :=
  match goSplitN message ' ' 3 with
  | [_, recipient, content] => .msg ⟨senderName, recipient, content⟩
  | _ => .usage

/-- The shared state read by the private-message dispatcher: the
`nameToConn` map (display name → connection) and `lastPrivateSender`
(recipient name → last sender name). -/
structure PMState where
  nameToConn : Str → Option Nat
  lastPrivateSender : Str → Option Str

/-- One write to one connection. -/
structure Delivery where
  conn : Nat
  text : Str
deriving DecidableEq, Repr

/-- The line written to the recipient for a delivered private message. -/
def privateText (sender msg : Str) : Str :=
  str "\x1b[34m[Private from " ++ sender ++ str "] " ++ msg ++ str "\x1b[0m\n"

/-- The line written back to the sender when the recipient is not found. -/
def notFoundText (recipient : Str) : Str :=
  str "User " ++ recipient ++ str " not found\n"

/-- One iteration of `processPrivateMessages` (private_message.go lines
46-67): resolve the recipient; on success record `lastPrivateSender[recipient]
= sender` and write to the recipient's connection; otherwise write the
not-found notice to the sender's own connection.  (When the sender itself is
no longer in `nameToConn`, the Go original would write through a nil
connection; modelled as no delivery.) -/
def processPrivateMessage (st : PMState) (pm : PrivateMessage) :
    PMState × List Delivery :=
  match st.nameToConn pm.recipient with
  | some rc =>
    ({ st with
        lastPrivateSender := fun u =>
          if u = pm.recipient then some pm.sender else st.lastPrivateSender u },
     [⟨rc, privateText pm.sender pm.message⟩])
  | none =>
    match st.nameToConn pm.sender with
    | some sc => (st, [⟨sc, notFoundText pm.recipient⟩])
    | none => (st, [])

/-- What `handleReplyCommand` resolves to. -/
inductive ReplyAction where
  | noPriorSender
  | usage
  | send (p : PrivateParse)
deriving DecidableEq, Repr

/-- `handleReplyCommand` (main.go lines 400-416): look up
`lastPrivateSender[clients[conn]]` first; then parse `/reply <message>`
with `SplitN(message, " ", 2)`; on success re-serialize
`fmt.Sprintf("/private %s %s", lastSender, msg)` and hand it to
`handlePrivateMessage`. -/
def handleReplyCommand (lastPS : Str → Option Str) (displayName message : Str) :
    ReplyAction :=
  match lastPS displayName with
  | none => .noPriorSender
  | some lastSender =>
    match goSplitN message ' ' 2 with
    | [_, m] =>
      if goTrim m = [] then .usage
      else .send (parsePrivateMessage displayName (str "/private " ++ lastSender ++ ' ' :: m))
    | _ => .usage

/-- `handleCommand` (main.go lines 360-397): true when the line starts with
one of the seven recognized command strings, in the code's own order. -/
def handleCommand (message : Str) : Bool :=
  goStartsWith message (str "/register") || goStartsWith message (str "/users") ||
  goStartsWith message (str "/private") || goStartsWith message (str "/reply") ||
  goStartsWith message (str "/exit") || goStartsWith message (str "/help") ||
  goStartsWith message (str "/status")

/-- What the Active-state read loop (main.go lines 163-178) does with a
line: dispatch it as a command, or broadcast it as chat text. -/
inductive ActiveAction where
  | dispatchCommand
  | broadcastChat
deriving DecidableEq, Repr

/-- The Active-state classification of one input line: `handleCommand` and
`continue` on true, otherwise `broadcast <- "name: message"`. -/
def classifyActiveLine (message : Str) : ActiveAction :=
  if handleCommand message then .dispatchCommand else .broadcastChat

/-- State of the broadcast path: the registered connections (the `clients`
map's keys), the FIFO `broadcast` channel, the log of dispatched messages in
dispatch order, and what has been written to each connection. -/
structure BState where
  clients : List Nat
  queue : List Str
  log : List Str
  inbox : Nat → List Str

/-- Events touching the broadcast path: a publish (`broadcast <- msg`), one
iteration of the `handleBroadcasting` consumer (main.go lines 308-316), a
session registering, a session unregistering. -/
inductive BOp where
  | publish (m : Str)
  | dispatch
  | join (c : Nat)
  | leave (c : Nat)

/-- One step of the broadcast semantics.  `dispatch` pops the channel head
and, under the mutex, writes it to every currently registered connection. -/
def bstep (st : BState) : BOp → BState
  | .publish m => { st with queue := st.queue ++ [m] }
  | .dispatch =>
    match st.queue with
    | [] => st
    | m :: q =>
      { st with
          queue := q
          log := st.log ++ [m]
          inbox := fun c => if c ∈ st.clients then st.inbox c ++ [m] else st.inbox c }
  | .join c => { st with clients := st.clients ++ [c] }
  | .leave c => { st with clients := st.clients.filter (fun x => x ≠ c) }

/-- Run a sequence of broadcast events. -/
def brun (st : BState) (ops : List BOp) : BState := ops.foldl bstep st

/-- The empty broadcast state. -/
def broadcastInit : BState := ⟨[], [], [], fun _ => []⟩

/-- The messages published by a sequence of events, in publish order. -/
def publishedList (ops : List BOp) : List Str :=
  ops.filterMap (fun op => match op with | .publish m => some m | _ => none)

/-- The three shared registry structures (main.go globals): `clients`
(connection → display name), `nameToConn` (display name → connection),
`displayNames` (display names in use). -/
structure RegState where
  clients : Nat → Option Str
  nameToConn : Str → Option Nat
  displayNames : Str → Bool

/-- Registry events, each one critical section of main.go:
display-name claim (lines 140-151), session-map insert (lines 154-157),
`/exit` (lines 319-334), disconnect cleanup (lines 180-188) — the cleanup
knows the goroutine-local `name`. -/
inductive RegOp where
  | claimName (n : Str)
  | addSession (c : Nat) (n : Str)
  | exitCmd (c : Nat)
  | cleanup (c : Nat) (n : Str)

/-- One registry step.  Note what each Go critical section touches:
the claim touches only `displayNames`; the insert touches `clients` and
`nameToConn`; `/exit` deletes from `clients` and `nameToConn` but not from
`displayNames` (the looked-up name defaults to "" when the connection is
absent, as a Go map read does); the cleanup deletes from all three. -/
def regStep (st : RegState) : RegOp → RegState
  | .claimName n =>
    if st.displayNames n then st
    else { st with displayNames := fun m => if m = n then true else st.displayNames m }
  | .addSession c n =>
    { st with
        clients := fun d => if d = c then some n else st.clients d
        nameToConn := fun m => if m = n then some c else st.nameToConn m }
  | .exitCmd c =>
    let n := (st.clients c).getD []
    { st with
        clients := fun d => if d = c then none else st.clients d
        nameToConn := fun m => if m = n then none else st.nameToConn m }
  | .cleanup c n =>
    { clients := fun d => if d = c then none else st.clients d
      nameToConn := fun m => if m = n then none else st.nameToConn m
      displayNames := fun m => if m = n then false else st.displayNames m }

/-- Run a sequence of registry events. -/
def regRun (st : RegState) (ops : List RegOp) : RegState := ops.foldl regStep st

/-- The empty registry. -/
def regInit : RegState := ⟨fun _ => none, fun _ => none, fun _ => false⟩

/-- The claimed mutual-consistency invariant: a display name has a session in
`clients` exactly when it is mapped in `nameToConn`, and exactly when it is
marked in `displayNames`. -/
def consistent (st : RegState) : Prop :=
  ∀ n : Str,
    ((∃ c, st.clients c = some n) ↔ st.nameToConn n ≠ none) ∧
    ((∃ c, st.clients c = some n) ↔ st.displayNames n = true)

/-- C1: the claim says an Active-state line starting with `/` that matches
none of the recognized command strings is reported to the sender as an
unrecognized-command error and is not broadcast.  The code has no such error
path: `handleCommand` returns false on `/foo hi` (which starts with `/` and
matches no recognized command), so the read loop broadcasts the line as chat
text to all sessions. -/
theorem c1_unrecognized_slash_broadcast :
    goStartsWith (str "/foo hi") (str "/") = true ∧
    handleCommand (str "/foo hi") = false ∧
    classifyActiveLine (str "/foo hi") = .broadcastChat := by
  refine ⟨by decide, by decide, by decide⟩

/-- C2: while `names` holds display name `n`, a further claim of `n` is
rejected (NameTaken) and the set is unchanged, so the claimant stays in name
selection; after the holder's disconnect cleanup releases `n`, a subsequent
claim of `n` succeeds and re-marks the name as used. -/
theorem c2_display_name_uniqueness (names : Str → Bool) (n : Str)
    (h : names n = true) :
    (claimDisplayName names n).1 = false ∧
    (claimDisplayName names n).2 = names ∧
    releaseDisplayName names n n = false ∧
    (claimDisplayName (releaseDisplayName names n) n).1 = true ∧
    (claimDisplayName (releaseDisplayName names n) n).2 n = true := by
  refine ⟨?_, ?_, ?_, ?_, ?_⟩ <;>
    simp [claimDisplayName, releaseDisplayName, h]

/-- C2 witness: a concrete set holding "bob". -/
theorem c2_display_name_uniqueness_witness :
    ((fun m => m == str "bob") (str "bob") = true) ∧
    ((claimDisplayName (fun m => m == str "bob") (str "bob")).1 = false ∧
     (claimDisplayName (fun m => m == str "bob") (str "bob")).2 = (fun m => m == str "bob") ∧
     releaseDisplayName (fun m => m == str "bob") (str "bob") (str "bob") = false ∧
     (claimDisplayName (releaseDisplayName (fun m => m == str "bob") (str "bob")) (str "bob")).1 = true ∧
     (claimDisplayName (releaseDisplayName (fun m => m == str "bob") (str "bob")) (str "bob")).2 (str "bob") = true) :=
  ⟨by decide, c2_display_name_uniqueness (fun m => m == str "bob") (str "bob") (by decide)⟩

/-- C5: one dispatcher iteration for a private message from a live sender:
when the recipient does not resolve, the not-found notice goes to the
sender's own connection and the whole state — `lastPrivateSender`
included — is unchanged; when it resolves to connection `rc`, the message
text goes to `rc`, `lastPrivateSender[recipient]` becomes the sender, no
other `lastPrivateSender` entry changes and `nameToConn` is untouched. -/
theorem c5_private_send (st : PMState) (pm : PrivateMessage) (sc : Nat)
    (hs : st.nameToConn pm.sender = some sc) :
    (st.nameToConn pm.recipient = none →
      processPrivateMessage st pm = (st, [⟨sc, notFoundText pm.recipient⟩])) ∧
    (∀ rc, st.nameToConn pm.recipient = some rc →
      (processPrivateMessage st pm).2 = [⟨rc, privateText pm.sender pm.message⟩] ∧
      (processPrivateMessage st pm).1.lastPrivateSender pm.recipient = some pm.sender ∧
      (processPrivateMessage st pm).1.nameToConn = st.nameToConn ∧
      (∀ u, u ≠ pm.recipient →
        (processPrivateMessage st pm).1.lastPrivateSender u = st.lastPrivateSender u)) := by
  constructor
  · intro hr
    simp [processPrivateMessage, hr, hs]
  · intro rc hr
    refine ⟨?_, ?_, ?_, ?_⟩ <;> simp [processPrivateMessage, hr]
    intro u hu
    simp [hu]

/-- C5 witness: sender "alice" on connection 7; recipient "bob" resolves to
connection 3. -/
theorem c5_private_send_witness :
    ((fun m => if m = str "alice" then some 7 else if m = str "bob" then some 3 else none)
        (str "alice") = some 7) ∧
    (((fun m => if m = str "alice" then some 7 else if m = str "bob" then some 3 else none) (str "bob") = none →
      processPrivateMessage ⟨fun m => if m = str "alice" then some 7 else if m = str "bob" then some 3 else none, fun _ => none⟩
          ⟨str "alice", str "bob", str "hi"⟩
        = (⟨fun m => if m = str "alice" then some 7 else if m = str "bob" then some 3 else none, fun _ => none⟩,
           [⟨7, notFoundText (str "bob")⟩])) ∧
     (∀ rc, (fun m => if m = str "alice" then some 7 else if m = str "bob" then some 3 else none) (str "bob") = some rc →
      (processPrivateMessage ⟨fun m => if m = str "alice" then some 7 else if m = str "bob" then some 3 else none, fun _ => none⟩
          ⟨str "alice", str "bob", str "hi"⟩).2 = [⟨rc, privateText (str "alice") (str "hi")⟩] ∧
      (processPrivateMessage ⟨fun m => if m = str "alice" then some 7 else if m = str "bob" then some 3 else none, fun _ => none⟩
          ⟨str "alice", str "bob", str "hi"⟩).1.lastPrivateSender (str "bob") = some (str "alice") ∧
      (processPrivateMessage ⟨fun m => if m = str "alice" then some 7 else if m = str "bob" then some 3 else none, fun _ => none⟩
          ⟨str "alice", str "bob", str "hi"⟩).1.nameToConn
        = (fun m => if m = str "alice" then some 7 else if m = str "bob" then some 3 else none) ∧
      (∀ u, u ≠ str "bob" →
        (processPrivateMessage ⟨fun m => if m = str "alice" then some 7 else if m = str "bob" then some 3 else none, fun _ => none⟩
            ⟨str "alice", str "bob", str "hi"⟩).1.lastPrivateSender u = none))) :=
  ⟨by decide,
   c5_private_send
     ⟨fun m => if m = str "alice" then some 7 else if m = str "bob" then some 3 else none, fun _ => none⟩
     ⟨str "alice", str "bob", str "hi"⟩ 7 (by decide)⟩

/-- C6 counterexample: the stored last sender is the display name "a b"
(display names may contain spaces; nothing validates them).  The claim says
the reply behaves exactly as a private send from "bob" to "a b", but the
code re-serializes a textual `/private a b hi` line and re-parses it, so the
reply is addressed to "a" with text "b hi". -/
theorem c6_reply_counterexample :
    handleReplyCommand (fun u => if u = str "bob" then some (str "a b") else none)
        (str "bob") (str "/reply hi")
      = .send (.msg ⟨str "bob", str "a", str "b hi"⟩) ∧
    handleReplyCommand (fun u => if u = str "bob" then some (str "a b") else none)
        (str "bob") (str "/reply hi")
      ≠ .send (.msg ⟨str "bob", str "a b", str "hi"⟩) := by
  refine ⟨by decide, by decide⟩

/-- C7: the claim says a successful `/status <text>` from the session
authenticated as username U stores `<text>` on U's credential.  The code
keys the UPDATE by `clients[conn]`, the session's display name: with
username "alice", display name "wland" and line `/status busy`, the handler
reports success yet the table is unchanged and alice's stored status is
still empty, not "busy". -/
theorem c7_status_divergence :
    (handleStatusCommand [⟨str "alice", generateFromPassword 0 (str "secret1"), []⟩]
        (str "wland") (str "/status busy")).1 = .ok (str "busy") ∧
    (handleStatusCommand [⟨str "alice", generateFromPassword 0 (str "secret1"), []⟩]
        (str "wland") (str "/status busy")).2
      = [⟨str "alice", generateFromPassword 0 (str "secret1"), []⟩] ∧
    getUserStatus
        (handleStatusCommand [⟨str "alice", generateFromPassword 0 (str "secret1"), []⟩]
          (str "wland") (str "/status busy")).2 (str "alice")
      ≠ some (str "busy") := by
  refine ⟨by decide, by decide, by decide⟩

/-- C10: `handleLoginCommand` rejects an over-long (trimmed) username or
password with the corresponding length error before consulting the
credential store: in either case the result is the same for every store. -/
theorem c10_login_length_check (db : CredDB) (message : Str) (c0 u0 p0 : Str)
    (hparse : goSplitN message ' ' 3 = [c0, u0, p0]) :
    (10 < goLen (goTrim u0) →
      handleLoginCommand db message = .userTooLong ∧
      ∀ db2 : CredDB, handleLoginCommand db2 message = .userTooLong) ∧
    (goLen (goTrim u0) ≤ 10 → 10 < goLen (goTrim p0) →
      handleLoginCommand db message = .passTooLong ∧
      ∀ db2 : CredDB, handleLoginCommand db2 message = .passTooLong) := by
  constructor
  · intro hu
    refine ⟨?_, fun db2 => ?_⟩ <;> simp [handleLoginCommand, hparse, hu]
  · intro hu hp
    have hu2 : ¬ (10 < goLen (goTrim u0)) := by omega
    refine ⟨?_, fun db2 => ?_⟩ <;> simp [handleLoginCommand, hparse, hu2, hp]

/-- C6 amended: a well-formed `/reply <text>` with no prior sender recorded
yields NoPriorSender; with a recorded last sender whose name contains no
space, it behaves exactly as a private send from U to that stored sender
(the code re-serializes a textual `/private` line, so a stored name
containing a space would be re-parsed with only its first token as the
recipient). -/
theorem c6_reply_amended (lastPS : Str → Option Str) (u message c0 m : Str)
    (hparse : goSplitN message ' ' 2 = [c0, m]) (hm : goTrim m ≠ []) :
    (lastPS u = none → handleReplyCommand lastPS u message = .noPriorSender) ∧
    (∀ ls, lastPS u = some ls → (∀ ch ∈ ls, ch ≠ ' ') →
      handleReplyCommand lastPS u message = .send (.msg ⟨u, ls, m⟩)) := by
  constructor
  · intro h
    simp [handleReplyCommand, h]
  · intro ls hls hsp
    have key : goSplitN (str "/private " ++ (ls ++ ' ' :: m)) ' ' 3
        = [str "/private", ls, m] := by
      have := goSplitN3_reconstructed ls m hsp
      simpa using this
    simp [handleReplyCommand, hls, hparse, hm, parsePrivateMessage, key]

/-- C6 amended witness: stored last sender "carol" (no space). -/
theorem c6_reply_amended_witness :
    goSplitN (str "/reply hi") ' ' 2 = [str "/reply", str "hi"] ∧
    goTrim (str "hi") ≠ [] ∧
    (((fun v => if v = str "bob" then some (str "carol") else none) (str "bob") = none →
      handleReplyCommand (fun v => if v = str "bob" then some (str "carol") else none)
        (str "bob") (str "/reply hi") = .noPriorSender) ∧
     (∀ ls, (fun v => if v = str "bob" then some (str "carol") else none) (str "bob") = some ls →
      (∀ ch ∈ ls, ch ≠ ' ') →
      handleReplyCommand (fun v => if v = str "bob" then some (str "carol") else none)
        (str "bob") (str "/reply hi") = .send (.msg ⟨str "bob", ls, str "hi"⟩))) :=
  ⟨by decide, by decide,
   c6_reply_amended (fun v => if v = str "bob" then some (str "carol") else none)
     (str "bob") (str "/reply hi") (str "/reply") (str "hi") (by decide) (by decide)⟩

/-- C4: for a line that splits into three fields and an origin that is not
rate limited, registration rejects an over-long (trimmed) username or
password with the corresponding length error and leaves the table unchanged;
rejects a username already present with the duplicate error and leaves the
table unchanged; and otherwise returns the new identity and the table then
holds exactly one row for that username, whose salted hash verifies against
the original password and against no other string. -/
theorem c4_register_contract (rl : RateState) (ip : Str) (now : Nat) (db : CredDB)
    (message : Str) (salt : Nat) (c0 u0 p0 : Str)
    (hparse : goSplitN message ' ' 3 = [c0, u0, p0])
    (hrl : (isRateLimited rl ip now).1 = false) :
    (10 < goLen (goTrim u0) →
      handleRegisterCommand rl ip now db message salt
        = (.userTooLong, db, (isRateLimited rl ip now).2)) ∧
    (goLen (goTrim u0) ≤ 10 → 10 < goLen (goTrim p0) →
      handleRegisterCommand rl ip now db message salt
        = (.passTooLong, db, (isRateLimited rl ip now).2)) ∧
    (goLen (goTrim u0) ≤ 10 → goLen (goTrim p0) ≤ 10 → 0 < countUser db (goTrim u0) →
      handleRegisterCommand rl ip now db message salt
        = (.duplicate, db, (isRateLimited rl ip now).2)) ∧
    (goLen (goTrim u0) ≤ 10 → goLen (goTrim p0) ≤ 10 → countUser db (goTrim u0) = 0 →
      (handleRegisterCommand rl ip now db message salt).1 = .ok (goTrim u0) ∧
      (handleRegisterCommand rl ip now db message salt).2.1.filter
          (fun c => c.username == goTrim u0)
        = [⟨goTrim u0, generateFromPassword salt (goTrim p0), []⟩] ∧
      compareHashAndPassword (generateFromPassword salt (goTrim p0)) (goTrim p0) = true ∧
      (∀ q : Str, q ≠ goTrim p0 →
        compareHashAndPassword (generateFromPassword salt (goTrim p0)) q = false)) := by
  refine ⟨?_, ?_, ?_, ?_⟩
  · intro hu
    simp [handleRegisterCommand, hrl, hparse, hu]
  · intro hu hp
    have hu2 : ¬ (10 < goLen (goTrim u0)) := by omega
    simp [handleRegisterCommand, hrl, hparse, hu2, hp]
  · intro hu hp hd
    have hu2 : ¬ (10 < goLen (goTrim u0)) := by omega
    have hp2 : ¬ (10 < goLen (goTrim p0)) := by omega
    simp [handleRegisterCommand, hrl, hparse, hu2, hp2, hd]
  · intro hu hp hd
    have hu2 : ¬ (10 < goLen (goTrim u0)) := by omega
    have hp2 : ¬ (10 < goLen (goTrim p0)) := by omega
    have hd2 : ¬ (0 < countUser db (goTrim u0)) := by omega
    have hnil : db.filter (fun c => c.username == goTrim u0) = [] :=
      List.length_eq_zero.mp hd
    refine ⟨?_, ?_, ?_, ?_⟩
    · simp [handleRegisterCommand, hrl, hparse, hu2, hp2, hd2]
    · simp [handleRegisterCommand, hrl, hparse, hu2, hp2, hd2, saveUser,
        List.filter_append, hnil]
    · simp [compareHashAndPassword, generateFromPassword]
    · intro q hq
      simp [compareHashAndPassword, generateFromPassword]
      exact fun h => hq h.symm

/-- C4 witness: registering alice/secret1 into an empty table from a fresh
origin. -/
theorem c4_register_contract_witness :
    goSplitN (str "/register alice secret1") ' ' 3
      = [str "/register", str "alice", str "secret1"] ∧
    (isRateLimited ⟨fun _ => 0, fun _ => none⟩ (str "o") 0).1 = false ∧
    ((10 < goLen (goTrim (str "alice")) →
      handleRegisterCommand ⟨fun _ => 0, fun _ => none⟩ (str "o") 0 []
          (str "/register alice secret1") 0
        = (.userTooLong, [], (isRateLimited ⟨fun _ => 0, fun _ => none⟩ (str "o") 0).2)) ∧
     (goLen (goTrim (str "alice")) ≤ 10 → 10 < goLen (goTrim (str "secret1")) →
      handleRegisterCommand ⟨fun _ => 0, fun _ => none⟩ (str "o") 0 []
          (str "/register alice secret1") 0
        = (.passTooLong, [], (isRateLimited ⟨fun _ => 0, fun _ => none⟩ (str "o") 0).2)) ∧
     (goLen (goTrim (str "alice")) ≤ 10 → goLen (goTrim (str "secret1")) ≤ 10 →
      0 < countUser [] (goTrim (str "alice")) →
      handleRegisterCommand ⟨fun _ => 0, fun _ => none⟩ (str "o") 0 []
          (str "/register alice secret1") 0
        = (.duplicate, [], (isRateLimited ⟨fun _ => 0, fun _ => none⟩ (str "o") 0).2)) ∧
     (goLen (goTrim (str "alice")) ≤ 10 → goLen (goTrim (str "secret1")) ≤ 10 →
      countUser [] (goTrim (str "alice")) = 0 →
      (handleRegisterCommand ⟨fun _ => 0, fun _ => none⟩ (str "o") 0 []
          (str "/register alice secret1") 0).1 = .ok (goTrim (str "alice")) ∧
      (handleRegisterCommand ⟨fun _ => 0, fun _ => none⟩ (str "o") 0 []
          (str "/register alice secret1") 0).2.1.filter
          (fun c => c.username == goTrim (str "alice"))
        = [⟨goTrim (str "alice"), generateFromPassword 0 (goTrim (str "secret1")), []⟩] ∧
      compareHashAndPassword (generateFromPassword 0 (goTrim (str "secret1")))
          (goTrim (str "secret1")) = true ∧
      (∀ q : Str, q ≠ goTrim (str "secret1") →
        compareHashAndPassword (generateFromPassword 0 (goTrim (str "secret1"))) q = false))) :=
  ⟨by decide, by decide,
   c4_register_contract ⟨fun _ => 0, fun _ => none⟩ (str "o") 0 []
     (str "/register alice secret1") 0
     (str "/register") (str "alice") (str "secret1") (by decide) (by decide)⟩

/-- Whether a registration outcome is the rate-limit denial. -/
def isRL : RegisterResult → Bool
  | .rateLimited => true
  | _ => false

/-- A sequence of registration attempts from one origin, threading the
rate-limit state; each attempt carries its time, the table it sees, its
input line and its salt. -/
def registerChain (rl : RateState) (ip : Str) :
    List (Nat × CredDB × Str × Nat) → List RegisterResult
  | [] => []
  | (now, db, m, s) :: rest =>
    (handleRegisterCommand rl ip now db m s).1 ::
      registerChain (handleRegisterCommand rl ip now db m s).2.2 ip rest

theorem handleRegister_rlState (rl : RateState) (ip : Str) (now : Nat)
    (db : CredDB) (m : Str) (s : Nat) :
    (handleRegisterCommand rl ip now db m s).2.2 = (isRateLimited rl ip now).2 := by
  simp only [handleRegisterCommand]
  repeat' split
  all_goals rfl

theorem handleRegister_isRL (rl : RateState) (ip : Str) (now : Nat)
    (db : CredDB) (m : Str) (s : Nat) :
    isRL (handleRegisterCommand rl ip now db m s).1 = (isRateLimited rl ip now).1 := by
  simp only [handleRegisterCommand]
  repeat' split
  all_goals simp_all [isRL]

theorem isRateLimited_allow_fresh (st : RateState) (ip : Str) (now : Nat)
    (ha : st.attempts ip = 0) (ht : st.times ip = none) :
    (isRateLimited st ip now).1 = false ∧
    (isRateLimited st ip now).2.attempts ip = 1 ∧
    (isRateLimited st ip now).2.times ip = some now := by
  simp [isRateLimited, ht, ha]

theorem isRateLimited_allow_inWindow (st : RateState) (ip : Str) (now last : Nat)
    (hk : st.attempts ip < 3) (ht : st.times ip = some last)
    (hw : now - last ≤ minuteNs) :
    (isRateLimited st ip now).1 = false ∧
    (isRateLimited st ip now).2.attempts ip = st.attempts ip + 1 ∧
    (isRateLimited st ip now).2.times ip = some now := by
  have h1 : ¬ (minuteNs < now - last) := by omega
  have h2 : ¬ (3 ≤ st.attempts ip) := by omega
  simp [isRateLimited, ht, h1, h2]

theorem isRateLimited_deny (st : RateState) (ip : Str) (now last : Nat)
    (hk : 3 ≤ st.attempts ip) (ht : st.times ip = some last)
    (hw : now - last ≤ minuteNs) :
    (isRateLimited st ip now).1 = true ∧
    (isRateLimited st ip now).2.attempts ip = st.attempts ip ∧
    (isRateLimited st ip now).2.times ip = some last := by
  have h1 : ¬ (minuteNs < now - last) := by omega
  simp [isRateLimited, ht, h1, hk]

theorem isRateLimited_allow_expired (st : RateState) (ip : Str) (now last : Nat)
    (ht : st.times ip = some last) (hw : minuteNs < now - last) :
    (isRateLimited st ip now).1 = false ∧
    (isRateLimited st ip now).2.attempts ip = 1 ∧
    (isRateLimited st ip now).2.times ip = some now := by
  simp [isRateLimited, ht, hw]

/-- C3 counterexample: registration attempts from one fresh origin at 0s,
30s and 59s are all evaluated; a fourth attempt at 61s falls more than 60
seconds after the first attempt of the window — the claimed window expiry,
with windowStart at the first attempt — yet the code still denies it as
rate limited, because `isRateLimited` re-records `registerTimes[ip]` on
every allowed attempt and so anchors the window at the last allowed attempt
(59s here, only 2s before). -/
theorem c3_rate_limit_counterexample :
    minuteNs < 61000000000 - 0 ∧
    (registerChain ⟨fun _ => 0, fun _ => none⟩ (str "o")
        [(0, [], str "x", 0), (30000000000, [], str "x", 0),
         (59000000000, [], str "x", 0), (61000000000, [], str "x", 0)]).map isRL
      = [false, false, false, true] := by
  refine ⟨by decide, by decide⟩

/-- C3 amended: from a fresh origin, the first three registration attempts
inside one 60-second window are evaluated on their own merits (not
rate-denied, whatever their lines say); a fourth attempt in the same window
is denied as rate limited regardless of its line; and once more than 60
seconds have passed since the last ALLOWED attempt (the code re-records the
window timestamp on every allowed attempt, so the window is anchored there,
not at the first attempt) the counter is reset and a subsequent attempt is
again evaluated normally. -/
theorem c3_registration_rate_limit (rl0 : RateState) (ip : Str)
    (t1 t2 t3 t4 t5 : Nat) (db1 db2 db3 db4 db5 : CredDB)
    (m1 m2 m3 m4 m5 : Str) (s1 s2 s3 s4 s5 : Nat)
    (ha : rl0.attempts ip = 0) (ht : rl0.times ip = none)
    (h12 : t1 ≤ t2) (h23 : t2 ≤ t3) (h34 : t3 ≤ t4)
    (hwin : t4 - t1 ≤ minuteNs) (h5 : minuteNs < t5 - t3) :
    (registerChain rl0 ip
        [(t1, db1, m1, s1), (t2, db2, m2, s2), (t3, db3, m3, s3),
         (t4, db4, m4, s4), (t5, db5, m5, s5)]).map isRL
      = [false, false, false, true, false] := by
  have e1 := isRateLimited_allow_fresh rl0 ip t1 ha ht
  have e2 := isRateLimited_allow_inWindow (isRateLimited rl0 ip t1).2 ip t2 t1
    (by rw [e1.2.1]; omega) e1.2.2 (by omega)
  have e3 := isRateLimited_allow_inWindow
    (isRateLimited (isRateLimited rl0 ip t1).2 ip t2).2 ip t3 t2
    (by rw [e2.2.1, e1.2.1]; omega) e2.2.2 (by omega)
  have e4 := isRateLimited_deny
    (isRateLimited (isRateLimited (isRateLimited rl0 ip t1).2 ip t2).2 ip t3).2 ip t4 t3
    (by rw [e3.2.1, e2.2.1, e1.2.1]) e3.2.2 (by omega)
  have e5 := isRateLimited_allow_expired
    (isRateLimited (isRateLimited (isRateLimited (isRateLimited rl0 ip t1).2 ip t2).2 ip t3).2 ip t4).2
    ip t5 t3 e4.2.2 h5
  simp [registerChain, List.map_cons, handleRegister_isRL, handleRegister_rlState,
    e1.1, e2.1, e3.1, e4.1, e5.1]

/-- C3 witness: four attempts at time 0 from a fresh origin, a fifth one
just over a minute later. -/
theorem c3_registration_rate_limit_witness :
    ((⟨fun _ => 0, fun _ => none⟩ : RateState).attempts (str "o") = 0) ∧
    ((⟨fun _ => 0, fun _ => none⟩ : RateState).times (str "o") = none) ∧
    (0 : Nat) ≤ 0 ∧ (0 : Nat) - 0 ≤ minuteNs ∧ minuteNs < 60000000001 - 0 ∧
    (registerChain ⟨fun _ => 0, fun _ => none⟩ (str "o")
        [(0, [], str "x", 0), (0, [], str "x", 0), (0, [], str "x", 0),
         (0, [], str "x", 0), (60000000001, [], str "x", 0)]).map isRL
      = [false, false, false, true, false] :=
  ⟨by decide, by decide, by decide, by decide, by decide,
   c3_registration_rate_limit ⟨fun _ => 0, fun _ => none⟩ (str "o")
     0 0 0 0 60000000001 [] [] [] [] [] (str "x") (str "x") (str "x") (str "x") (str "x")
     0 0 0 0 0 (by decide) (by decide) (by decide) (by decide) (by decide)
     (by decide) (by decide)⟩

theorem brun_cons (st : BState) (op : BOp) (ops : List BOp) :
    brun st (op :: ops) = brun (bstep st op) ops := rfl

theorem brun_log_queue (st : BState) (ops : List BOp) :
    (brun st ops).log ++ (brun st ops).queue
      = st.log ++ st.queue ++ publishedList ops := by
  induction ops generalizing st with
  | nil => simp [brun, publishedList]
  | cons op ops ih =>
    rw [brun_cons, ih]
    cases op with
    | publish m => simp [bstep, publishedList, List.filterMap_cons]
    | dispatch =>
      cases hq : st.queue with
      | nil => simp [bstep, hq, publishedList, List.filterMap_cons]
      | cons m q => simp [bstep, hq, publishedList, List.filterMap_cons]
    | join c => simp [bstep, publishedList, List.filterMap_cons]
    | leave c => simp [bstep, publishedList, List.filterMap_cons]

theorem brun_inbox_sublist (st : BState) (ops : List BOp) (c : Nat)
    (h : List.Sublist (st.inbox c) st.log) :
    List.Sublist ((brun st ops).inbox c) (brun st ops).log := by
  induction ops generalizing st with
  | nil => exact h
  | cons op ops ih =>
    rw [brun_cons]
    apply ih
    cases op with
    | publish m => simpa [bstep] using h
    | dispatch =>
      cases hq : st.queue with
      | nil => simpa [bstep, hq] using h
      | cons m q =>
        by_cases hc : c ∈ st.clients
        · simpa [bstep, hq, hc] using h.append (List.Sublist.refl [m])
        · simpa [bstep, hq, hc] using h.trans (List.sublist_append_left st.log [m])
    | join d => simpa [bstep] using h
    | leave d => simpa [bstep] using h

/-- C8: broadcast total order.  For every event sequence, the dispatch log
followed by the still-queued messages equals the published messages in
publish order (the channel is FIFO and the single consumer dispatches in
that order — no reordering, no coalescing); every session's inbox is a
subsequence of the dispatch log, so two messages received by the same
session arrive in publish order; and one dispatch delivers the head message
to exactly the sessions registered at that instant — a session not
registered then (e.g. joining later) does not receive it. -/
theorem c8_broadcast_order (ops : List BOp) (c : Nat) (st : BState) (m : Str)
    (q : List Str) (hq : st.queue = m :: q) :
    ((brun broadcastInit ops).log ++ (brun broadcastInit ops).queue
      = publishedList ops) ∧
    List.Sublist ((brun broadcastInit ops).inbox c) (brun broadcastInit ops).log ∧
    (c ∈ st.clients → (bstep st .dispatch).inbox c = st.inbox c ++ [m]) ∧
    (c ∉ st.clients → (bstep st .dispatch).inbox c = st.inbox c) := by
  refine ⟨?_, ?_, ?_, ?_⟩
  · simpa [broadcastInit] using brun_log_queue broadcastInit ops
  · exact brun_inbox_sublist broadcastInit ops c (by simp [broadcastInit])
  · intro hc
    simp [bstep, hq, hc]
  · intro hc
    simp [bstep, hq, hc]

/-- C8 witness: two published messages dispatched to a session that joined
before the first dispatch, and one pending dispatch state. -/
theorem c8_broadcast_order_witness :
    ((⟨[1], [str "z"], [], fun _ => []⟩ : BState).queue = [str "z"]) ∧
    (((brun broadcastInit
        [.publish (str "m1"), .join 1, .publish (str "m2"), .dispatch, .dispatch]).log ++
      (brun broadcastInit
        [.publish (str "m1"), .join 1, .publish (str "m2"), .dispatch, .dispatch]).queue
      = publishedList [.publish (str "m1"), .join 1, .publish (str "m2"), .dispatch, .dispatch]) ∧
     List.Sublist
       ((brun broadcastInit
          [.publish (str "m1"), .join 1, .publish (str "m2"), .dispatch, .dispatch]).inbox 1)
       (brun broadcastInit
          [.publish (str "m1"), .join 1, .publish (str "m2"), .dispatch, .dispatch]).log ∧
     ((1 : Nat) ∈ (⟨[1], [str "z"], [], fun _ => []⟩ : BState).clients →
       (bstep (⟨[1], [str "z"], [], fun _ => []⟩ : BState) .dispatch).inbox 1
         = (⟨[1], [str "z"], [], fun _ => []⟩ : BState).inbox 1 ++ [str "z"]) ∧
     ((1 : Nat) ∉ (⟨[1], [str "z"], [], fun _ => []⟩ : BState).clients →
       (bstep (⟨[1], [str "z"], [], fun _ => []⟩ : BState) .dispatch).inbox 1
         = (⟨[1], [str "z"], [], fun _ => []⟩ : BState).inbox 1)) :=
  ⟨rfl,
   c8_broadcast_order
     [.publish (str "m1"), .join 1, .publish (str "m2"), .dispatch, .dispatch]
     1 ⟨[1], [str "z"], [], fun _ => []⟩ (str "z") [] rfl⟩

/-- C9 counterexample: the reachable run (claim "bob", register the session,
then `/exit`) ends in a state where "bob" is still marked in `displayNames`
but absent from `clients` and `nameToConn` — `/exit` (main.go lines 319-334)
deletes from only two of the three structures, so the claimed
all-or-nothing consistency fails. -/
theorem c9_exit_inconsistency :
    ¬ consistent (regRun regInit
      [.claimName (str "bob"), .addSession 0 (str "bob"), .exitCmd 0]) := by
  intro h
  obtain ⟨h1, h2⟩ := h (str "bob")
  have hd : (regRun regInit
      [.claimName (str "bob"), .addSession 0 (str "bob"), .exitCmd 0]).displayNames
        (str "bob") = true := by decide
  have hn : (regRun regInit
      [.claimName (str "bob"), .addSession 0 (str "bob"), .exitCmd 0]).nameToConn
        (str "bob") = none := by decide
  exact h1.mp (h2.mpr hd) hn

/-- C9 amended: the disconnect cleanup removes a session from all three
structures together, and the join sequence (name claim, then session-map
insert, two separate critical sections) establishes it in all three; but
`/exit` removes it only from `clients` and `nameToConn`, leaving the display
name held until the subsequent disconnect cleanup, so a state with the name
present in `displayNames` alone is reachable. -/
theorem c9_registry_amended (st : RegState) (c : Nat) (n : Str)
    (hc : st.clients c = some n) :
    ((regStep st (.cleanup c n)).clients c = none ∧
     (regStep st (.cleanup c n)).nameToConn n = none ∧
     (regStep st (.cleanup c n)).displayNames n = false) ∧
    ((regStep st (.exitCmd c)).clients c = none ∧
     (regStep st (.exitCmd c)).nameToConn n = none ∧
     (regStep st (.exitCmd c)).displayNames = st.displayNames) ∧
    (∀ st2 : RegState, st2.displayNames n = false →
      (regStep (regStep st2 (.claimName n)) (.addSession c n)).clients c = some n ∧
      (regStep (regStep st2 (.claimName n)) (.addSession c n)).nameToConn n = some c ∧
      (regStep (regStep st2 (.claimName n)) (.addSession c n)).displayNames n = true) := by
  refine ⟨⟨?_, ?_, ?_⟩, ⟨?_, ?_, ?_⟩, ?_⟩
  · simp [regStep]
  · simp [regStep]
  · simp [regStep]
  · simp [regStep]
  · simp [regStep, hc]
  · simp [regStep]
  · intro st2 h2
    refine ⟨?_, ?_, ?_⟩ <;> simp [regStep, h2]

/-- C9 amended witness: one session (connection 0, name "bob"). -/
theorem c9_registry_amended_witness :
    ((⟨fun d => if d = 0 then some (str "bob") else none,
       fun m => if m = str "bob" then some 0 else none,
       fun m => m == str "bob"⟩ : RegState).clients 0 = some (str "bob")) ∧
    (((regStep (⟨fun d => if d = 0 then some (str "bob") else none,
        fun m => if m = str "bob" then some 0 else none,
        fun m => m == str "bob"⟩ : RegState) (.cleanup 0 (str "bob"))).clients 0 = none ∧
      (regStep (⟨fun d => if d = 0 then some (str "bob") else none,
        fun m => if m = str "bob" then some 0 else none,
        fun m => m == str "bob"⟩ : RegState) (.cleanup 0 (str "bob"))).nameToConn (str "bob") = none ∧
      (regStep (⟨fun d => if d = 0 then some (str "bob") else none,
        fun m => if m = str "bob" then some 0 else none,
        fun m => m == str "bob"⟩ : RegState) (.cleanup 0 (str "bob"))).displayNames (str "bob") = false) ∧
     ((regStep (⟨fun d => if d = 0 then some (str "bob") else none,
        fun m => if m = str "bob" then some 0 else none,
        fun m => m == str "bob"⟩ : RegState) (.exitCmd 0)).clients 0 = none ∧
      (regStep (⟨fun d => if d = 0 then some (str "bob") else none,
        fun m => if m = str "bob" then some 0 else none,
        fun m => m == str "bob"⟩ : RegState) (.exitCmd 0)).nameToConn (str "bob") = none ∧
      (regStep (⟨fun d => if d = 0 then some (str "bob") else none,
        fun m => if m = str "bob" then some 0 else none,
        fun m => m == str "bob"⟩ : RegState) (.exitCmd 0)).displayNames
        = (⟨fun d => if d = 0 then some (str "bob") else none,
           fun m => if m = str "bob" then some 0 else none,
           fun m => m == str "bob"⟩ : RegState).displayNames) ∧
     (∀ st2 : RegState, st2.displayNames (str "bob") = false →
      (regStep (regStep st2 (.claimName (str "bob"))) (.addSession 0 (str "bob"))).clients 0
        = some (str "bob") ∧
      (regStep (regStep st2 (.claimName (str "bob"))) (.addSession 0 (str "bob"))).nameToConn (str "bob")
        = some 0 ∧
      (regStep (regStep st2 (.claimName (str "bob"))) (.addSession 0 (str "bob"))).displayNames (str "bob")
        = true)) :=
  ⟨by decide,
   c9_registry_amended
     ⟨fun d => if d = 0 then some (str "bob") else none,
      fun m => if m = str "bob" then some 0 else none,
      fun m => m == str "bob"⟩ 0 (str "bob") (by decide)⟩

/-- C10 witness: an 11-byte username, checked against two different stores. -/
theorem c10_login_length_check_witness :
    goSplitN (str "/login abcdefghijk pw") ' ' 3
      = [str "/login", str "abcdefghijk", str "pw"] ∧
    ((10 < goLen (goTrim (str "abcdefghijk")) →
      handleLoginCommand [] (str "/login abcdefghijk pw") = .userTooLong ∧
      ∀ db2 : CredDB, handleLoginCommand db2 (str "/login abcdefghijk pw") = .userTooLong) ∧
     (goLen (goTrim (str "abcdefghijk")) ≤ 10 → 10 < goLen (goTrim (str "pw")) →
      handleLoginCommand [] (str "/login abcdefghijk pw") = .passTooLong ∧
      ∀ db2 : CredDB, handleLoginCommand db2 (str "/login abcdefghijk pw") = .passTooLong)) :=
  ⟨by decide,
   c10_login_length_check [] (str "/login abcdefghijk pw")
     (str "/login") (str "abcdefghijk") (str "pw") (by decide)⟩
